import Mathlib

/-!
Shallow embedding of the AyurGenixAI core pipeline:
  * `src/simple_rag_processor.py` — the text-matching retrieval engine
    (`search_by_symptoms_and_dosha`, `search_by_text`, `_format_case_text`);
  * `src/enhanced_prescription.py` — the generation orchestrator
    (`generate_prescription`, `_create_fallback_response`), the line-oriented
    response parser inside `_create_json_output`, and the display formatter
    `_format_display_output`.

Strings are modelled as `List Char` (Python `str` over its characters).
Python's ambient-clock reads (`datetime.now()` inside the formatters) are
modelled by threading the clock value as an explicit argument.
A pandas `DataFrame` is modelled as a list of column names plus rows of
cells, where a cell is either a NaN marker or a string value; a column
that is missing from the frame corresponds to a failed column lookup.
-/

namespace AyurGenix

/-- Characters of a string literal, the working representation of Python text. -/
def cs (s : String) : List Char := s.data

/-- Python whitespace test used by `str.strip()` (the ASCII whitespace
characters that occur in this program's text). -/
def isWS (c : Char) : Bool :=
  c = ' ' || c = '\t' || c = '\n' || c = '\r' || c = '\x0b' || c = '\x0c'

/-- Python `str.strip()`: drop whitespace from both ends. -/
def pyStrip (l : List Char) : List Char :=
  ((l.dropWhile isWS).reverse.dropWhile isWS).reverse

/-- Boolean test that `needle` is a leading block of `hay`. -/
def pfx : List Char → List Char → Bool
  | [], _ => true
  | _ :: _, [] => false
  | a :: as, b :: bs => a = b && pfx as bs

/-- Python `needle in hay`: `needle` occurs contiguously inside `hay`. -/
def isSubstr (needle : List Char) : List Char → Bool
  | [] => pfx needle []
  | c :: t => pfx needle (c :: t) || isSubstr needle t

/-- Python `str.lower()` (ASCII case folding, which covers this program's data). -/
def lowerStr (l : List Char) : List Char := l.map Char.toLower

/-- Auxiliary non-overlapping occurrence counter for a non-empty needle:
scan left to right, and after a match skip the whole needle.  The fuel
argument (at least the hay length) only forces structural recursion; every
step consumes at least one hay character. -/
def countAux (fuel : Nat) (needle hay : List Char) : Nat :=
  match fuel, hay with
  | 0, _ => 0
  | _, [] => 0
  | f + 1, c :: rest =>
    if pfx needle (c :: rest) then 1 + countAux f needle (rest.drop (needle.length - 1))
    else countAux f needle rest

/-- Python `hay.count(needle)`: non-overlapping occurrences; an empty needle
counts `hay.length + 1`. -/
def pyCount (needle hay : List Char) : Nat :=
  if needle = [] then hay.length + 1 else countAux hay.length needle hay

/-- Python `text.split(sep)` for a one-character separator. -/
def splitOnC (sep : Char) : List Char → List (List Char)
  | [] => [[]]
  | c :: rest =>
    if c = sep then [] :: splitOnC sep rest
    else
      match splitOnC sep rest with
      | [] => [[c]]
      | l :: ls => (c :: l) :: ls

/-- Python `text.split('\n')`, the parser's line splitter. -/
def splitNl (l : List Char) : List (List Char) := splitOnC '\n' l

/-- Python dict assignment `m[k] = v`: replace in place if the key exists,
otherwise append at the end (insertion-order preservation). -/
def dictSet (m : List (List Char × List Char)) (k v : List Char) :
    List (List Char × List Char) :=
  if m.any (fun kv => kv.1 = k) then
    m.map (fun kv => if kv.1 = k then (k, v) else kv)
  else m ++ [(k, v)]

/-- Decimal digit character. -/
def digitChar (n : Nat) : Char :=
  match n with
  | 0 => '0' | 1 => '1' | 2 => '2' | 3 => '3' | 4 => '4'
  | 5 => '5' | 6 => '6' | 7 => '7' | 8 => '8' | _ => '9'

/-- Decimal digits of `n`, most significant first; the fuel argument (at
least the digit count) only forces structural recursion. -/
def natReprAux (fuel n : Nat) : List Char :=
  match fuel with
  | 0 => []
  | f + 1 => if n < 10 then [digitChar n] else natReprAux f (n / 10) ++ [digitChar (n % 10)]

/-- Characters of Python `str(n)` for a natural number. -/
def natRepr (n : Nat) : List Char := natReprAux (n + 1) n

/-- Characters of Python `str(i)` for an integer. -/
def intRepr (i : Int) : List Char :=
  if i < 0 then '-' :: natRepr i.natAbs else natRepr i.toNat

/-- Python `', '.join(xs)`. -/
def joinCommaSp (xs : List (List Char)) : List Char :=
  List.intercalate (cs ", ") xs

/-- A pandas cell: NaN (missing value) or a string value.  A column missing
from the frame altogether is a failed lookup (`rowGet` returns `none`). -/
inductive Cell where
  | nan : Cell
  | val : List Char → Cell
deriving DecidableEq, Repr

/-- The loaded corpus: column names plus one list of cells per record,
aligned positionally with the column names. -/
structure DataFrame where
  cols : List (List Char)
  rows : List (List Cell)
deriving DecidableEq, Repr

/-- Pandas `row.get(c)` / `row[c]`: position of column `c`, then that cell;
`none` when the frame has no such column. -/
def rowGet (cols : List (List Char)) (row : List Cell) (c : List Char) : Option Cell :=
  match cols.findIdx? (fun x => x = c) with
  | none => none
  | some i => row.get? i

/-- Python `str(row.get(c, ''))`: absent column gives `''`, NaN gives the
literal string `"nan"` (Python's `str(float('nan'))`), a value gives itself. -/
def strOrEmpty : Option Cell → List Char
  | none => []
  | some Cell.nan => cs "nan"
  | some (Cell.val s) => s

/-- Metadata normalization `row.get(c, 'N/A')`: the `'N/A'` default applies
only when the column is absent; a NaN cell passes through unchanged. -/
def naDefault : Option Cell → Cell
  | none => Cell.val (cs "N/A")
  | some c => c

/-- Scoring of one record against a structured query, from
`search_by_symptoms_and_dosha` (src/simple_rag_processor.py lines 57-85):
+10 constitution substring, +8 bidirectional diagnosis/disease containment
when the diagnosis is non-empty, +3 per symptom found in the symptoms text,
+1 per symptom found in the herbs text and +1 per symptom found in the
formulation text. -/
def scoreStructured (symptoms : List (List Char)) (dosha diagnosis : List Char)
    (cols : List (List Char)) (row : List Cell) : Nat :=
  let symptomsL := symptoms.map lowerStr
  let doshaL := lowerStr dosha
  let diagL := lowerStr diagnosis
  let constScore : Nat :=
    match rowGet cols row (cs "Constitution") with
    | some (Cell.val s) => if isSubstr doshaL (lowerStr s) then 10 else 0
    | _ => 0
  let disScore : Nat :=
    match rowGet cols row (cs "Disease") with
    | some (Cell.val s) =>
      if diagL ≠ [] ∧ (isSubstr diagL (lowerStr s) ∨ isSubstr (lowerStr s) diagL)
      then 8 else 0
    | _ => 0
  let symText := strOrEmpty (rowGet cols row (cs "Symptoms"))
  let symScore := 3 * symptomsL.countP (fun sy => isSubstr sy (lowerStr symText))
  let herbsText := strOrEmpty (rowGet cols row (cs "Ayurvedic_Herbs"))
  let formText := strOrEmpty (rowGet cols row (cs "Formulation"))
  let ctxScore :=
    (symptomsL.map (fun sy =>
      (if isSubstr sy (lowerStr herbsText) then 1 else 0) +
      (if isSubstr sy (lowerStr formText) then 1 else 0))).sum
  constScore + disScore + symScore + ctxScore

/-- Score of one record for a free-text query at one column position, from
`search_by_text` (lines 176-181): skip NaN/absent, otherwise count the
occurrences of the lowercased query in the lowercased cell text when the
query occurs at all. -/
def cellTextScore (ql : List Char) : Option Cell → Nat
  | some (Cell.val s) =>
    let t := lowerStr s
    if isSubstr ql t then pyCount ql t else 0
  | _ => 0

/-- Total free-text score of a record: the sum over all columns of the frame. -/
def textScore (ql : List Char) (cols : List (List Char)) (row : List Cell) : Nat :=
  ((List.range cols.length).map (fun i => cellTextScore ql (row.get? i))).sum

/-- Index/value enumeration, Python `enumerate`/`DataFrame.iterrows` with a
positional `RangeIndex`. -/
def enumFrom {α : Type} (k : Nat) : List α → List (Nat × α)
  | [] => []
  | a :: as => (k, a) :: enumFrom (k + 1) as

/-- Insert a `(score, index)` pair into a list sorted by descending score,
after every entry with a strictly greater score and before entries with an
equal or smaller one.  Folded over a list this is the unique stable
descending sort, the behaviour of Python's
`scores.sort(reverse=True, key=lambda x: x[0])`. -/
def insertDesc (x : Nat × Nat) : List (Nat × Nat) → List (Nat × Nat)
  | [] => [x]
  | y :: ys => if x.1 < y.1 then y :: insertDesc x ys else x :: y :: ys

/-- Stable sort by descending score (Python `sort(reverse=True, key=fst)`). -/
def insSortDesc : List (Nat × Nat) → List (Nat × Nat)
  | [] => []
  | x :: xs => insertDesc x (insSortDesc xs)

/-- Element count of the Python slice `l[:n]` (also of pandas `head(n)`):
`n` itself when `0 ≤ n`, and `len - |n|` (clamped at zero) when `n < 0`. -/
def sliceLen (len : Nat) (n : Int) : Nat :=
  if 0 ≤ n then n.toNat else len - n.natAbs

/-- Python slice `l[:n]` / pandas `head(n)`. -/
def pySlice {α : Type} (l : List α) (n : Int) : List α :=
  l.take (sliceLen l.length n)

/-- The public retrieval shape (`RetrievedCase`): stringified original index,
rendered one-line summary, metadata association list. -/
structure RetrievedCase where
  id : List Char
  text : List Char
  metadata : List (List Char × Cell)
deriving DecidableEq, Repr

instance : Inhabited RetrievedCase := ⟨{ id := [], text := [], metadata := [] }⟩

/-- `_format_case_text` (lines 122-141): join the present (non-NaN) fields
among Disease, Symptoms, Constitution, Herbs, Formulation with `" | "`. -/
def caseText (cols : List (List Char)) (row : List Cell) : List Char :=
  let part := fun (label : List Char) (col : List Char) =>
    match rowGet cols row col with
    | some (Cell.val s) => some (label ++ s)
    | _ => none
  List.intercalate (cs " | ")
    (([part (cs "Disease: ") (cs "Disease"),
       part (cs "Symptoms: ") (cs "Symptoms"),
       part (cs "Constitution: ") (cs "Constitution"),
       part (cs "Herbs: ") (cs "Ayurvedic_Herbs"),
       part (cs "Formulation: ") (cs "Formulation")]).filterMap id)

/-- Metadata of `search_by_symptoms_and_dosha` (lines 103-111): seven keys. -/
def mkMeta7 (cols : List (List Char)) (row : List Cell) : List (List Char × Cell) :=
  [(cs "disease", naDefault (rowGet cols row (cs "Disease"))),
   (cs "symptoms", naDefault (rowGet cols row (cs "Symptoms"))),
   (cs "constitution", naDefault (rowGet cols row (cs "Constitution"))),
   (cs "ayurvedic_herbs", naDefault (rowGet cols row (cs "Ayurvedic_Herbs"))),
   (cs "formulation", naDefault (rowGet cols row (cs "Formulation"))),
   (cs "diet_recommendations", naDefault (rowGet cols row (cs "Diet_Recommendations"))),
   (cs "lifestyle_recommendations", naDefault (rowGet cols row (cs "Lifestyle_Recommendations")))]

/-- Metadata of `search_by_text` (lines 196-203): only six keys, with no
`lifestyle_recommendations` entry. -/
def mkMeta6 (cols : List (List Char)) (row : List Cell) : List (List Char × Cell) :=
  [(cs "disease", naDefault (rowGet cols row (cs "Disease"))),
   (cs "symptoms", naDefault (rowGet cols row (cs "Symptoms"))),
   (cs "constitution", naDefault (rowGet cols row (cs "Constitution"))),
   (cs "ayurvedic_herbs", naDefault (rowGet cols row (cs "Ayurvedic_Herbs"))),
   (cs "formulation", naDefault (rowGet cols row (cs "Formulation"))),
   (cs "diet_recommendations", naDefault (rowGet cols row (cs "Diet_Recommendations")))]

/-- One result of the structured search, built from `self.data.iloc[idx]`. -/
def mkResult7 (df : DataFrame) (idx : Nat) : RetrievedCase :=
  let row := (df.rows.get? idx).getD []
  { id := natRepr idx, text := caseText df.cols row, metadata := mkMeta7 df.cols row }

/-- One result of the free-text search, built from `self.data.iloc[idx]`. -/
def mkResult6 (df : DataFrame) (idx : Nat) : RetrievedCase :=
  let row := (df.rows.get? idx).getD []
  { id := natRepr idx, text := caseText df.cols row, metadata := mkMeta6 df.cols row }

/-- The scored index list of the structured search (lines 55-85). -/
def scoredStructured (df : DataFrame) (symptoms : List (List Char))
    (dosha diagnosis : List Char) : List (Nat × Nat) :=
  (enumFrom 0 df.rows).map
    (fun p => (scoreStructured symptoms dosha diagnosis df.cols p.2, p.1))

/-- The index sequence selected by `search_by_symptoms_and_dosha`
(lines 87-93): sort stably by descending score, slice to `n`, keep positive
scores; if nothing is kept, fall back to the indices of
`self.data.head(n)`. -/
def structIdx (df : DataFrame) (symptoms : List (List Char))
    (dosha diagnosis : List Char) (n : Int) : List Nat :=
  let sorted := insSortDesc (scoredStructured df symptoms dosha diagnosis)
  let topIdx := ((pySlice sorted n).filter (fun p => 0 < p.1)).map (fun p => p.2)
  if topIdx = [] then pySlice (List.range df.rows.length) n else topIdx

/-- `search_by_symptoms_and_dosha` (lines 29-116): the selected indices
rendered through the seven-key result shape. -/
def searchStructured (df : DataFrame) (symptoms : List (List Char))
    (dosha diagnosis : List Char) (n : Int) : List RetrievedCase :=
  (structIdx df symptoms dosha diagnosis n).map (mkResult7 df)

/-- The scored index list of the free-text search, which keeps only positive
scores before sorting (lines 171-184). -/
def scoredText (df : DataFrame) (q : List Char) : List (Nat × Nat) :=
  ((enumFrom 0 df.rows).map
    (fun p => (textScore (lowerStr q) df.cols p.2, p.1))).filter (fun p => 0 < p.1)

/-- The index sequence selected by `search_by_text` (lines 186-188): stable
descending sort of the positive scores, then the slice to `n`. -/
def textIdx (df : DataFrame) (q : List Char) (n : Int) : List Nat :=
  (pySlice (insSortDesc (scoredText df q)) n).map (fun p => p.2)

/-- `search_by_text` (lines 155-207): the selected indices rendered through
the six-key result shape, with no fallback. -/
def searchByText (df : DataFrame) (q : List Char) (n : Int) : List RetrievedCase :=
  (textIdx df q n).map (mkResult6 df)

/-- The structured score of the record at position `i` (out-of-range
positions get the empty row, matching `mkResult7`'s default). -/
def scoreAt (df : DataFrame) (symptoms : List (List Char))
    (dosha diagnosis : List Char) (i : Nat) : Nat :=
  scoreStructured symptoms dosha diagnosis df.cols ((df.rows.get? i).getD [])

/-- Whether a record has at least one non-absent (string-valued) field among
the frame's columns. -/
def rowHasVal (cols : List (List Char)) (row : List Cell) : Bool :=
  (List.range cols.length).any (fun i =>
    match row.get? i with
    | some (Cell.val _) => true
    | _ => false)

/-- The free-text score of a record for the empty query: each string-valued
field contributes its character length plus one. -/
def sumFieldLens (cols : List (List Char)) (row : List Cell) : Nat :=
  ((List.range cols.length).map (fun i =>
    match row.get? i with
    | some (Cell.val s) => s.length + 1
    | _ => 0)).sum

/-- `PatientInfo` (src/enhanced_prescription.py lines 12-20). -/
structure PatientInfo where
  name : List Char
  age : Int
  gender : List Char
  constitution_dosha : List Char
  symptoms : List (List Char)
  doctor_diagnosis : List Char
deriving DecidableEq, Repr

/-- The parser's `current_section` variable (lines 181-191): initially
Python `None`, then one of the three section names. -/
inductive Sec where
  | start : Sec
  | medicines : Sec
  | diet : Sec
  | lifestyle : Sec
deriving DecidableEq, Repr

/-- The parser's accumulated state: the three collections plus the section. -/
structure PState where
  medicines : List (List Char)
  diet : List (List Char × List Char)
  lifestyle : List (List Char)
  sec : Sec
deriving DecidableEq, Repr

/-- The literal medicines section header (line 186). -/
def medHdr : List Char := cs "1. Ayurvedic Medicines:"

/-- The literal diet section header (line 188). -/
def dietHdr : List Char := cs "2. Diet Recommendation:"

/-- The literal lifestyle section header (line 190). -/
def lifeHdr : List Char := cs "3. Lifestyle Recommendations:"

/-- Store the third pipe segment of a diet table line under `key` when the
split has at least three segments (lines 197-212 inner blocks). -/
def dietStore (st : PState) (line : List Char) (key : List Char) : PState :=
  let parts := splitOnC '|' line
  if 3 ≤ parts.length then
    { st with diet := dictSet st.diet key (pyStrip ((parts.get? 2).getD [])) }
  else st

/-- One iteration of the parsing loop inside `_create_json_output`
(lines 183-212): strip the line, then run the if/elif chain in source order. -/
def parseStep (st : PState) (raw : List Char) : PState :=
  let line := pyStrip raw
  if isSubstr medHdr line then { st with sec := Sec.medicines }
  else if isSubstr dietHdr line then { st with sec := Sec.diet }
  else if isSubstr lifeHdr line then { st with sec := Sec.lifestyle }
  else if line.head? = some '•' ∧ st.sec = Sec.medicines then
    { st with medicines := st.medicines ++ [pyStrip (line.drop 1)] }
  else if line.head? = some '•' ∧ st.sec = Sec.lifestyle then
    { st with lifestyle := st.lifestyle ++ [pyStrip (line.drop 1)] }
  else if line.contains '|' ∧ st.sec = Sec.diet then
    if isSubstr (cs "Breakfast") line then dietStore st line (cs "breakfast")
    else if isSubstr (cs "Lunch") line then dietStore st line (cs "lunch")
    else if isSubstr (cs "Dinner") line then dietStore st line (cs "dinner")
    else if isSubstr (cs "Drinks") line then dietStore st line (cs "drinks")
    else st
  else st

/-- The whole parsing loop of `_create_json_output` over `text.split('\n')`. -/
def parse (text : List Char) : PState :=
  (splitNl text).foldl parseStep { medicines := [], diet := [], lifestyle := [], sec := Sec.start }

/-- The structured JSON document assembled by `_create_json_output`
(lines 214-234); `nowIso` models the `datetime.now().isoformat()` read. -/
structure PrescriptionJson where
  name : List Char
  age : Int
  gender : List Char
  constitution : List Char
  diagnosis : List Char
  symptoms : List (List Char)
  medicines : List (List Char)
  diet : List (List Char × List Char)
  lifestyle : List (List Char)
  generated_date : List Char
  generated_by : List Char
  format_version : List Char
deriving DecidableEq, Repr

/-- `_create_json_output` (lines 170-236): parse the text and assemble the
three-group document. -/
def createJsonOutput (text : List Char) (p : PatientInfo) (nowIso : List Char) :
    PrescriptionJson :=
  let r := parse text
  { name := p.name, age := p.age, gender := p.gender,
    constitution := p.constitution_dosha, diagnosis := p.doctor_diagnosis,
    symptoms := p.symptoms,
    medicines := r.medicines, diet := r.diet, lifestyle := r.lifestyle,
    generated_date := nowIso, generated_by := cs "AyurGenixAI",
    format_version := cs "1.0" }

/-- The 80-character banner bar `'═'*80` of `_format_display_output`. -/
def bars : List Char := List.replicate 80 '═'

/-- The fixed footer of `_format_display_output` (lines 153-166). -/
def displayFooter : List Char :=
  cs "\n\n" ++ bars ++
  cs "\n                        IMPORTANT NOTES\n" ++ bars ++
  cs "\n• Follow the prescription consistently for optimal results\n• Maintain regular meal times and sleep schedule  \n• Stay hydrated with warm water throughout the day\n• Consult an Ayurvedic physician if symptoms persist\n• This prescription is based on traditional Ayurvedic principles\n\nGenerated by AyurGenixAI - Your Ayurvedic Health Companion\n" ++
  bars ++ cs "\n"

/-- The part of the display header before the patient name (lines 140-144). -/
def displayPre : List Char :=
  cs "\n" ++ bars ++ cs "\n                    AYURVEDIC PRESCRIPTION\n" ++ bars ++
  cs "\nPatient: "

/-- The rest of the display output after the patient name: the remaining
header fields (lines 144-151), the wrapped text, and the footer; `nowDate`
models the `datetime.now().strftime("%B %d, %Y")` read (line 148). -/
def displayPost (text : List Char) (p : PatientInfo) (nowDate : List Char) : List Char :=
  cs " | Age: " ++ intRepr p.age ++ cs " | Gender: " ++ p.gender ++
  cs "\nConstitution: " ++ p.constitution_dosha ++
  cs "\nDiagnosis: " ++ p.doctor_diagnosis ++
  cs "\nSymptoms: " ++ joinCommaSp p.symptoms ++
  cs "\nDate: " ++ nowDate ++ cs "\n" ++ bars ++ cs "\n\n" ++
  text ++ displayFooter

/-- `_format_display_output` (lines 137-168): banner header, the raw text,
fixed footer, by plain concatenation. -/
def formatDisplayOutput (text : List Char) (p : PatientInfo) (nowDate : List Char) :
    List Char :=
  displayPre ++ (p.name ++ displayPost text p nowDate)

/-- The line of the fallback text that interpolates the patient fields
(line 265): `Prescription for {name} ({age}, {gender}, {dosha} constitution):`. -/
def fallbackHeaderLine (p : PatientInfo) : List Char :=
  cs "Prescription for " ++ p.name ++ cs " (" ++ intRepr p.age ++ cs ", " ++
  p.gender ++ cs ", " ++ p.constitution_dosha ++ cs " constitution):"

/-- The fixed remainder of the fallback prescription text (lines 266-288),
starting with the blank line that separates it from the header line. -/
def fallbackTail : List Char :=
  cs "\n1. Ayurvedic Medicines:\n   • Triphala Churna: 1 tsp with warm water at bedtime\n   • Ashwagandha powder: 1/2 tsp with warm milk twice daily\n   • Amla juice: 20 ml with water in the morning\n\n2. Diet Recommendation:\n   +-----------+----------------------------------------+\n   | Meal      | Recommendation                         |\n   +-----------+----------------------------------------+\n   | Breakfast | Warm oats with seasonal fruits         |\n   | Lunch     | Rice with dal and cooked vegetables    |\n   | Dinner    | Light khichdi or vegetable soup        |\n   | Drinks    | Warm water, herbal teas                |\n   +-----------+----------------------------------------+\n\n3. Lifestyle Recommendations:\n   • Practice Anulom-Vilom pranayama daily (10 minutes)\n   • Morning walk for 20-30 minutes\n   • Sleep by 10 PM, wake by 6 AM\n   • Avoid processed and cold foods\n   • Practice meditation for stress relief (10 minutes daily)\n"

/-- The full fixed fallback prescription text of `_create_fallback_response`
(lines 264-288). -/
def fallbackText (p : PatientInfo) : List Char :=
  '\n' :: (fallbackHeaderLine p ++ ('\n' :: fallbackTail))

/-- The outcome of the external generator call, the opaque collaborator:
either the call raises, or it returns text (`[]` models empty/falsy text). -/
inductive GenOutcome where
  | raises : GenOutcome
  | returns : List Char → GenOutcome
deriving DecidableEq, Repr

/-- `PrescriptionResult`, the dictionary returned by `generate_prescription`
(lines 53-59 and 293-299). -/
structure PrescResult where
  success : Bool
  display_format : List Char
  json_format : PrescriptionJson
  raw_response : Option (List Char)
  error : Option (List Char)
  similar_cases_count : Nat
deriving DecidableEq, Repr

/-- `_create_fallback_response` (lines 261-299): run the fixed fallback text
through the same formatter and parser, with `success=False`,
`similar_cases_count=0` and the explanatory error string. -/
def createFallbackResponse (p : PatientInfo) (nowDate nowIso : List Char) : PrescResult :=
  { success := false,
    display_format := formatDisplayOutput (fallbackText p) p nowDate,
    json_format := createJsonOutput (fallbackText p) p nowIso,
    raw_response := none,
    error := some (cs "Using fallback prescription"),
    similar_cases_count := 0 }

/-- `generate_prescription` (lines 30-65): on generator exception or falsy
text, the fallback outcome; otherwise the success outcome built from the
generator text. -/
def generatePrescription (p : PatientInfo) (similar : List RetrievedCase)
    (g : GenOutcome) (nowDate nowIso : List Char) : PrescResult :=
  match g with
  | GenOutcome.raises => createFallbackResponse p nowDate nowIso
  | GenOutcome.returns t =>
    if t ≠ [] then
      { success := true,
        display_format := formatDisplayOutput t p nowDate,
        json_format := createJsonOutput t p nowIso,
        raw_response := some t,
        error := none,
        similar_cases_count := similar.length }
    else createFallbackResponse p nowDate nowIso

/-! ### Concrete fixtures used by counterexamples and witnesses -/

/-- A corpus whose single record has a NaN `Symptoms` cell in a present
column (C1). -/
def dfNanSym : DataFrame :=
  ⟨[cs "Constitution", cs "Symptoms"], [[Cell.val (cs "Pitta"), Cell.nan]]⟩

/-- A two-record corpus on which every structured query scores 0 (C2). -/
def dfAllZero : DataFrame := ⟨[cs "Constitution"], [[Cell.nan], [Cell.nan]]⟩

/-- The one-record corpus of the concrete retrieval scenario (C6). -/
def dfScenario : DataFrame :=
  ⟨[cs "Constitution", cs "Disease", cs "Symptoms"],
   [[Cell.val (cs "Pitta"), Cell.val (cs "Acid Reflux"),
     Cell.val (cs "heartburn, bloating")]]⟩

/-- A two-record corpus in which both records match the query `"a"` (C9). -/
def dfTwoMatch : DataFrame :=
  ⟨[cs "Disease"], [[Cell.val (cs "asthma")], [Cell.val (cs "asthma")]]⟩

/-- A corpus for the empty-query free-text search: two records with values,
one all-NaN record (C10). -/
def dfMixed : DataFrame :=
  ⟨[cs "Disease", cs "Symptoms"],
   [[Cell.val (cs "asthma"), Cell.nan],
    [Cell.nan, Cell.nan],
    [Cell.val (cs "flu"), Cell.val (cs "cough")]]⟩

/-- An ordinary patient whose fields contain no newline (C4 witness, C8). -/
def pPlain : PatientInfo :=
  ⟨cs "Ravi Kumar", 45, cs "Male", cs "Pitta", [cs "heartburn"], cs "Acid Reflux"⟩

/-- A patient whose name smuggles a medicines header and a bullet line into
the fallback text (C4 counterexample). -/
def pEvil : PatientInfo :=
  ⟨cs "X\n1. Ayurvedic Medicines:\n• Extra pill", 45, cs "Male", cs "Pitta",
   [cs "heartburn"], cs "Acid Reflux"⟩

/-- A parser state sitting in the diet section with empty collections (C7). -/
def stDiet : PState := ⟨[], [], [], Sec.diet⟩

/-- The well-formed diet table line of the concrete parsing scenario (C7). -/
def dietLineOk : List Char := cs "| Breakfast | Warm oats |"

/-- A diet-state line that satisfies the claim's conditions (pipe, meal
keyword, three segments) but also contains the diet header phrase, so the
header branch of the if/elif chain consumes it (C7 counterexample). -/
def dietLineHdr : List Char := cs "2. Diet Recommendation: | Breakfast | oats |"

/-! ### Basic lemmas about the string primitives -/

theorem pfx_iff (n h : List Char) : pfx n h = true ↔ ∃ t, h = n ++ t := by
  induction n generalizing h with
  | nil => simp [pfx]
  | cons a as ih =>
    cases h with
    | nil => simp [pfx]
    | cons b bs =>
      simp only [pfx, Bool.and_eq_true, decide_eq_true_eq, ih, List.cons_append, List.cons.injEq]
      constructor
      · rintro ⟨rfl, t, rfl⟩
        exact ⟨t, rfl, rfl⟩
      · rintro ⟨t, rfl, rfl⟩
        exact ⟨rfl, t, rfl⟩

theorem isSubstr_iff (n h : List Char) : isSubstr n h = true ↔ ∃ s t, h = s ++ (n ++ t) := by
  induction h with
  | nil =>
    cases n with
    | nil => simp [isSubstr, pfx]
    | cons a as => simp [isSubstr, pfx]
  | cons c t ih =>
    simp only [isSubstr, Bool.or_eq_true, pfx_iff, ih]
    constructor
    · rintro (⟨u, hu⟩ | ⟨s, u, rfl⟩)
      · exact ⟨[], u, by simpa using hu⟩
      · exact ⟨c :: s, u, rfl⟩
    · rintro ⟨s, u, hsu⟩
      cases s with
      | nil => exact Or.inl ⟨u, by simpa using hsu⟩
      | cons d ds =>
        simp only [List.cons_append, List.cons.injEq] at hsu
        exact Or.inr ⟨ds, u, hsu.2⟩

theorem isSubstr_sandwich (s n t : List Char) : isSubstr n (s ++ (n ++ t)) = true :=
  (isSubstr_iff n _).mpr ⟨s, t, rfl⟩

/-! ### Lemmas about line splitting -/

theorem splitOnC_ne_nil (sep : Char) (l : List Char) : splitOnC sep l ≠ [] := by
  induction l with
  | nil => simp [splitOnC]
  | cons c rest ih =>
    by_cases hc : c = sep
    · simp [splitOnC, hc]
    · simp only [splitOnC, if_neg hc]
      cases hrec : splitOnC sep rest with
      | nil => simp
      | cons a as => simp

theorem splitOnC_sep_cons (sep : Char) (l : List Char) :
    splitOnC sep (sep :: l) = [] :: splitOnC sep l := by
  simp [splitOnC]

theorem splitOnC_append_noSep (sep : Char) (a b : List Char) (h : sep ∉ a) :
    splitOnC sep (a ++ b) =
      (a ++ (splitOnC sep b).headI) :: (splitOnC sep b).tail := by
  induction a with
  | nil =>
    simp only [List.nil_append]
    cases hb : splitOnC sep b with
    | nil => exact absurd hb (splitOnC_ne_nil sep b)
    | cons x xs => simp
  | cons c rest ih =>
    have hc : ¬ c = sep := fun hcs => h (hcs ▸ List.mem_cons_self c rest)
    have hrest : sep ∉ rest := fun hm => h (List.mem_cons_of_mem c hm)
    simp only [List.cons_append, splitOnC, if_neg hc, List.append_eq, ih hrest]

/-! ### The decimal representation contains no newline -/

theorem digitChar_ne_nl (n : Nat) : digitChar n ≠ '\n' := by
  rcases n with _ | _ | _ | _ | _ | _ | _ | _ | _ | n
  · decide
  · decide
  · decide
  · decide
  · decide
  · decide
  · decide
  · decide
  · decide
  · show ('9' : Char) ≠ '\n'
    decide

theorem natReprAux_no_nl (fuel n : Nat) : '\n' ∉ natReprAux fuel n := by
  induction fuel generalizing n with
  | zero => simp [natReprAux]
  | succ f ih =>
    unfold natReprAux
    by_cases h : n < 10
    · simp only [if_pos h, List.mem_singleton]
      exact fun hc => digitChar_ne_nl n hc.symm
    · simp only [if_neg h, List.mem_append, List.mem_singleton]
      rintro (hm | hm)
      · exact ih (n / 10) hm
      · exact digitChar_ne_nl (n % 10) hm.symm

theorem natRepr_no_nl (n : Nat) : '\n' ∉ natRepr n :=
  natReprAux_no_nl (n + 1) n

theorem intRepr_no_nl (i : Int) : '\n' ∉ intRepr i := by
  unfold intRepr
  by_cases h : i < 0
  · simp only [if_pos h, List.mem_cons]
    rintro (hm | hm)
    · exact absurd hm (by decide)
    · exact natRepr_no_nl _ hm
  · simp only [if_neg h]
    exact natRepr_no_nl _

/-! ### Lemmas about the index enumeration -/

theorem mem_enumFrom {α : Type} (k : Nat) (l : List α) (p : Nat × α) :
    p ∈ enumFrom k l ↔ ∃ j, p.1 = k + j ∧ l.get? j = some p.2 := by
  induction l generalizing k with
  | nil => simp [enumFrom]
  | cons a as ih =>
    simp only [enumFrom, List.mem_cons, ih]
    constructor
    · rintro (rfl | ⟨j, hj, hget⟩)
      · exact ⟨0, by simp, by simp [List.get?]⟩
      · exact ⟨j + 1, by omega, by simpa [List.get?] using hget⟩
    · rintro ⟨j, hj, hget⟩
      cases j with
      | zero =>
        left
        simp only [List.get?] at hget
        obtain ⟨p1, p2⟩ := p
        simp only at hj
        simp only [Option.some.injEq] at hget
        simp [hj, hget]
      | succ j =>
        right
        exact ⟨j, by omega, by simpa [List.get?] using hget⟩

theorem enumFrom_fst_lt {α : Type} (k : Nat) (l : List α) (p : Nat × α)
    (h : p ∈ enumFrom k l) : k ≤ p.1 := by
  obtain ⟨j, hj, _⟩ := (mem_enumFrom k l p).mp h
  omega

theorem enumFrom_pairwise {α : Type} (k : Nat) (l : List α) :
    (enumFrom k l).Pairwise (fun a b => a.1 < b.1) := by
  induction l generalizing k with
  | nil => simp [enumFrom]
  | cons a as ih =>
    simp only [enumFrom, List.pairwise_cons]
    exact ⟨fun p hp => by have := enumFrom_fst_lt (k + 1) as p hp; omega, ih (k + 1)⟩

/-! ### Lemmas about the stable descending sort -/

/-- The total ranking order of the spec: score strictly descending, ties
broken by strictly ascending original index. -/
def rankRel (a b : Nat × Nat) : Prop := b.1 < a.1 ∨ (a.1 = b.1 ∧ a.2 < b.2)

theorem insertDesc_perm (x : Nat × Nat) (l : List (Nat × Nat)) :
    List.Perm (insertDesc x l) (x :: l) := by
  induction l with
  | nil => simp [insertDesc]
  | cons y ys ih =>
    by_cases h : x.1 < y.1
    · simp only [insertDesc, if_pos h]
      exact (List.Perm.cons y ih).trans (List.Perm.swap x y ys)
    · simp [insertDesc, if_neg h]

theorem mem_insertDesc (x z : Nat × Nat) (l : List (Nat × Nat)) :
    z ∈ insertDesc x l ↔ z = x ∨ z ∈ l := by
  rw [(insertDesc_perm x l).mem_iff]
  simp

theorem insSortDesc_perm (l : List (Nat × Nat)) : List.Perm (insSortDesc l) l := by
  induction l with
  | nil => simp [insSortDesc]
  | cons x xs ih =>
    exact (insertDesc_perm x (insSortDesc xs)).trans (List.Perm.cons x ih)

theorem pairwise_insertDesc (x : Nat × Nat) (l : List (Nat × Nat))
    (hl : l.Pairwise rankRel) (hx : ∀ y ∈ l, x.2 < y.2) :
    (insertDesc x l).Pairwise rankRel := by
  induction l with
  | nil => simp [insertDesc, rankRel]
  | cons y ys ih =>
    rw [List.pairwise_cons] at hl
    by_cases h : x.1 < y.1
    · simp only [insertDesc, if_pos h, List.pairwise_cons]
      constructor
      · intro z hz
        rcases (mem_insertDesc x z ys).mp hz with rfl | hz'
        · exact Or.inl h
        · exact hl.1 z hz'
      · exact ih hl.2 (fun y' hy' => hx y' (List.mem_cons_of_mem y hy'))
    · simp only [insertDesc, if_neg h, List.pairwise_cons]
      refine ⟨?_, hl.1, hl.2⟩
      intro z hz
      rcases List.mem_cons.mp hz with rfl | hz'
      · rcases Nat.lt_or_ge z.1 x.1 with hlt | hge
        · exact Or.inl hlt
        · exact Or.inr ⟨by omega, hx z (List.mem_cons_self z ys)⟩
      · rcases hl.1 z hz' with hlt | ⟨heq, _⟩
        · rcases Nat.lt_or_ge z.1 x.1 with hlt' | hge'
          · exact Or.inl hlt'
          · exact Or.inr ⟨by omega, hx z (List.mem_cons_of_mem y hz')⟩
        · rcases Nat.lt_or_ge z.1 x.1 with hlt' | hge'
          · exact Or.inl hlt'
          · exact Or.inr ⟨by omega, hx z (List.mem_cons_of_mem y hz')⟩

theorem insSortDesc_pairwise (l : List (Nat × Nat))
    (h : l.Pairwise (fun a b => a.2 < b.2)) : (insSortDesc l).Pairwise rankRel := by
  induction l with
  | nil => simp [insSortDesc]
  | cons x xs ih =>
    rw [List.pairwise_cons] at h
    refine pairwise_insertDesc x (insSortDesc xs) (ih h.2) ?_
    intro y hy
    exact h.1 y ((insSortDesc_perm xs).mem_iff.mp hy)

/-- Every element of the sorted structured score list is the true score of an
in-range record index. -/
theorem mem_sorted_scoredStructured (df : DataFrame) (symptoms : List (List Char))
    (dosha diagnosis : List Char) (p : Nat × Nat)
    (h : p ∈ insSortDesc (scoredStructured df symptoms dosha diagnosis)) :
    ∃ row, df.rows.get? p.2 = some row ∧
      p.1 = scoreStructured symptoms dosha diagnosis df.cols row := by
  have hmem := (insSortDesc_perm _).mem_iff.mp h
  simp only [scoredStructured, List.mem_map] at hmem
  obtain ⟨q, hq, rfl⟩ := hmem
  obtain ⟨j, hj, hget⟩ := (mem_enumFrom 0 df.rows q).mp hq
  have hq1 : q.1 = j := by omega
  exact ⟨q.2, by rw [hq1]; exact hget, rfl⟩

/-- The sorted structured score list is ordered by the ranking order. -/
theorem sorted_scoredStructured_pairwise (df : DataFrame)
    (symptoms : List (List Char)) (dosha diagnosis : List Char) :
    (insSortDesc (scoredStructured df symptoms dosha diagnosis)).Pairwise rankRel := by
  apply insSortDesc_pairwise
  apply List.pairwise_map.mpr
  exact (enumFrom_pairwise 0 df.rows).imp (fun h => h)

/-- In a list ordered by the ranking order, the head has the greatest score. -/
theorem pairwise_head_ge (q p : Nat × Nat) (t : List (Nat × Nat))
    (hp : (q :: t).Pairwise rankRel) (hmem : p ∈ q :: t) : p.1 ≤ q.1 := by
  rcases List.mem_cons.mp hmem with rfl | hmem'
  · exact le_refl _
  · rcases (List.pairwise_cons.mp hp).1 p hmem' with hlt | ⟨heq, _⟩
    · omega
    · omega

/-- Rebuilding score/index pairs from the projected indices recovers the
original pair list when every pair carries the score of its index. -/
theorem remap_fst (f : Nat → Nat) (l : List (Nat × Nat)) (h : ∀ p ∈ l, p.1 = f p.2) :
    (l.map (fun p => p.2)).map (fun i => (f i, i)) = l := by
  induction l with
  | nil => rfl
  | cons p ps ih =>
    simp only [List.map_cons, List.cons.injEq]
    refine ⟨?_, ih (fun q hq => h q (List.mem_cons_of_mem p hq))⟩
    have hp := h p (List.mem_cons_self p ps)
    exact Prod.ext hp.symm rfl

/-- The scored pair of any in-range record occurs in the structured score
list. -/
theorem scoredStructured_mem_of (df : DataFrame) (symptoms : List (List Char))
    (dosha diagnosis : List Char) (i : Nat) (row : List Cell)
    (h : df.rows.get? i = some row) :
    (scoreStructured symptoms dosha diagnosis df.cols row, i) ∈
      scoredStructured df symptoms dosha diagnosis := by
  unfold scoredStructured
  exact List.mem_map.mpr ⟨(i, row),
    (mem_enumFrom 0 df.rows (i, row)).mpr ⟨i, by omega, h⟩, rfl⟩

/-- A sum of naturals is positive exactly when some summand is. -/
theorem list_sum_pos_iff (l : List Nat) : 0 < l.sum ↔ ∃ x ∈ l, 0 < x := by
  induction l with
  | nil => simp
  | cons a as ih =>
    simp only [List.sum_cons, List.mem_cons]
    constructor
    · intro h
      by_cases ha : 0 < a
      · exact ⟨a, Or.inl rfl, ha⟩
      · have : 0 < as.sum := by omega
        obtain ⟨x, hx, hpos⟩ := ih.mp this
        exact ⟨x, Or.inr hx, hpos⟩
    · rintro ⟨x, rfl | hx, hpos⟩
      · omega
      · have : 0 < as.sum := ih.mpr ⟨x, hx, hpos⟩
        omega

theorem isSubstr_nil (t : List Char) : isSubstr [] t = true := by
  cases t with
  | nil => rfl
  | cons c u => simp [isSubstr, pfx]

/-- The per-cell text score of the empty query: each string value counts its
length plus one occurrence. -/
theorem cellTextScore_nil (c : Option Cell) :
    cellTextScore [] c =
      (match c with
       | some (Cell.val s) => s.length + 1
       | _ => 0) := by
  match c with
  | none => rfl
  | some Cell.nan => rfl
  | some (Cell.val s) =>
    show (if isSubstr [] (lowerStr s) then pyCount [] (lowerStr s) else 0) = s.length + 1
    rw [isSubstr_nil, if_pos rfl]
    simp [pyCount, lowerStr]

/-- The free-text score of the empty query is the sum of field lengths plus
one per string-valued field. -/
theorem textScore_nil_eq (cols : List (List Char)) (row : List Cell) :
    textScore [] cols row = sumFieldLens cols row := by
  unfold textScore sumFieldLens
  congr 1
  apply List.map_congr_left
  intro i _
  rw [cellTextScore_nil]

/-- The empty-query score of a record is positive exactly when some field is
a string value. -/
theorem textScore_nil_pos_iff (cols : List (List Char)) (row : List Cell) :
    0 < textScore [] cols row ↔ rowHasVal cols row = true := by
  rw [textScore_nil_eq]
  unfold sumFieldLens rowHasVal
  rw [list_sum_pos_iff, List.any_eq_true]
  constructor
  · rintro ⟨x, hx, hpos⟩
    obtain ⟨i, hi, rfl⟩ := List.mem_map.mp hx
    refine ⟨i, hi, ?_⟩
    match hc : row.get? i with
    | some (Cell.val s) => rfl
    | some Cell.nan => rw [hc] at hpos; simp at hpos
    | none => rw [hc] at hpos; simp at hpos
  · rintro ⟨i, hi, htrue⟩
    match hc : row.get? i with
    | some (Cell.val s) =>
      exact ⟨s.length + 1, List.mem_map.mpr ⟨i, hi, by rw [hc]⟩, by omega⟩
    | some Cell.nan => rw [hc] at htrue; exact absurd htrue (by simp)
    | none => rw [hc] at htrue; exact absurd htrue (by simp)

/-- Length of the positive-score list of the free-text search. -/
theorem enum_score_filter_length (g : List Cell → Nat) (k : Nat) (rows : List (List Cell)) :
    ((((enumFrom k rows).map (fun p => (g p.2, p.1))).filter (fun p => 0 < p.1)).length)
      = rows.countP (fun r => decide (0 < g r)) := by
  induction rows generalizing k with
  | nil => rfl
  | cons r rs ih =>
    simp only [enumFrom, List.map_cons, List.filter_cons, List.countP_cons]
    by_cases h : 0 < g r
    · have hih := ih (k + 1)
      simp [h] at hih ⊢
      omega
    · have hih := ih (k + 1)
      simp [h] at hih ⊢
      omega

theorem scoredText_length (df : DataFrame) (q : List Char) :
    (scoredText df q).length =
      df.rows.countP (fun r => decide (0 < textScore (lowerStr q) df.cols r)) := by
  unfold scoredText
  exact enum_score_filter_length (fun r => textScore (lowerStr q) df.cols r) 0 df.rows

/-- Every member of a scored free-text pair list carries the score of an
in-range record. -/
theorem mem_scoredText (df : DataFrame) (q : List Char) (p : Nat × Nat)
    (h : p ∈ scoredText df q) :
    ∃ row, df.rows.get? p.2 = some row ∧ p.1 = textScore (lowerStr q) df.cols row := by
  unfold scoredText at h
  have h' := List.mem_of_mem_filter h
  obtain ⟨pr, hpr, rfl⟩ := List.mem_map.mp h'
  obtain ⟨j, hj, hget⟩ := (mem_enumFrom 0 df.rows pr).mp hpr
  have hj' : pr.1 = j := by omega
  exact ⟨pr.2, by rw [hj']; exact hget, rfl⟩

/-- Every index the structured search selects refers to an actual record. -/
theorem structIdx_mem (df : DataFrame) (symptoms : List (List Char))
    (dosha diagnosis : List Char) (n : Int) :
    ∀ i ∈ structIdx df symptoms dosha diagnosis n,
      ∃ row, df.rows.get? i = some row := by
  intro i hi
  simp only [structIdx] at hi
  split_ifs at hi with hfb
  · have hrange : i ∈ List.range df.rows.length := (List.take_sublist _ _).subset hi
    have hlt := List.mem_range.mp hrange
    exact ⟨df.rows.get ⟨i, hlt⟩, List.get?_eq_get hlt⟩
  · obtain ⟨p, hp, rfl⟩ := List.mem_map.mp hi
    have hp2 := List.mem_of_mem_filter hp
    have hp3 := (List.take_sublist _ _).subset hp2
    obtain ⟨row, hrow, _⟩ := mem_sorted_scoredStructured df symptoms dosha diagnosis p hp3
    exact ⟨row, hrow⟩

/-- Every index the free-text search selects refers to an actual record. -/
theorem textIdx_mem (df : DataFrame) (q : List Char) (n : Int) :
    ∀ i ∈ textIdx df q n, ∃ row, df.rows.get? i = some row := by
  intro i hi
  simp only [textIdx] at hi
  obtain ⟨p, hp, rfl⟩ := List.mem_map.mp hi
  have hp2 := (List.take_sublist _ _).subset hp
  have hp3 := (insSortDesc_perm _).mem_iff.mp hp2
  obtain ⟨row, hrow, _⟩ := mem_scoredText df q p hp3
  exact ⟨row, hrow⟩

/-! ### Lemmas about the response parser -/

theorem parseStep_nil_id (st : PState) : parseStep st [] = st := by
  have h1 : isSubstr medHdr [] = false := rfl
  have h2 : isSubstr dietHdr [] = false := rfl
  have h3 : isSubstr lifeHdr [] = false := rfl
  simp [parseStep, pyStrip, h1, h2, h3]

/-- While the section is still the initial one, no line ever touches the
three collections: only the section can change. -/
theorem parseStep_start_shape (m : List (List Char)) (d : List (List Char × List Char))
    (lf : List (List Char)) (l : List Char) :
    ∃ s, parseStep ⟨m, d, lf, Sec.start⟩ l = ⟨m, d, lf, s⟩ := by
  simp only [parseStep, dietStore]
  by_cases h1 : isSubstr medHdr (pyStrip l) = true
  · exact ⟨Sec.medicines, by rw [if_pos h1]⟩
  · rw [if_neg h1]
    by_cases h2 : isSubstr dietHdr (pyStrip l) = true
    · exact ⟨Sec.diet, by rw [if_pos h2]⟩
    · rw [if_neg h2]
      by_cases h3 : isSubstr lifeHdr (pyStrip l) = true
      · exact ⟨Sec.lifestyle, by rw [if_pos h3]⟩
      · exact ⟨Sec.start, by rw [if_neg h3]; simp⟩

/-- A line containing the medicines header only switches the section. -/
theorem parseStep_medHdr (st : PState) (l : List Char)
    (h : isSubstr medHdr (pyStrip l) = true) :
    parseStep st l = { st with sec := Sec.medicines } := by
  unfold parseStep
  simp only [h, if_true]

/-- Generic invariant preservation along the parsing loop. -/
theorem foldl_parseStep_inv (P : PState → Prop) (ls : List (List Char))
    (hstep : ∀ st l, l ∈ ls → P st → P (parseStep st l)) (st : PState) (hst : P st) :
    P (List.foldl parseStep st ls) := by
  induction ls generalizing st with
  | nil => exact hst
  | cons a as ih =>
    exact ih (fun st' l hl => hstep st' l (List.mem_cons_of_mem a hl))
      (parseStep st a) (hstep st a (List.mem_cons_self a as) hst)

/-- The line decomposition of the fallback text: an empty first line, the
interpolated header line, then the lines of the fixed tail — provided no
interpolated patient field contains a newline. -/
theorem splitNl_fallbackText (p : PatientInfo)
    (hn : '\n' ∉ p.name) (hg : '\n' ∉ p.gender) (hd : '\n' ∉ p.constitution_dosha) :
    splitNl (fallbackText p) = [] :: fallbackHeaderLine p :: splitNl fallbackTail := by
  have hhdr : '\n' ∉ fallbackHeaderLine p := by
    unfold fallbackHeaderLine
    intro hm
    simp only [List.mem_append, or_assoc] at hm
    rcases hm with hm | hm | hm | hm | hm | hm | hm | hm | hm
    · exact absurd hm (by decide)
    · exact hn hm
    · exact absurd hm (by decide)
    · exact intRepr_no_nl p.age hm
    · exact absurd hm (by decide)
    · exact hg hm
    · exact absurd hm (by decide)
    · exact hd hm
    · exact absurd hm (by decide)
  unfold fallbackText splitNl
  rw [splitOnC_sep_cons '\n' (fallbackHeaderLine p ++ ('\n' :: fallbackTail))]
  rw [splitOnC_append_noSep '\n' (fallbackHeaderLine p) ('\n' :: fallbackTail) hhdr]
  rw [splitOnC_sep_cons '\n' fallbackTail]
  simp

/-- Parsing the fallback text of any patient whose interpolated fields are
newline-free yields exactly the three fixed medicines and the five fixed
lifestyle recommendations. -/
theorem parse_fallbackText (p : PatientInfo)
    (hn : '\n' ∉ p.name) (hg : '\n' ∉ p.gender) (hd : '\n' ∉ p.constitution_dosha) :
    (parse (fallbackText p)).medicines =
      [cs "Triphala Churna: 1 tsp with warm water at bedtime",
       cs "Ashwagandha powder: 1/2 tsp with warm milk twice daily",
       cs "Amla juice: 20 ml with water in the morning"] ∧
    (parse (fallbackText p)).lifestyle =
      [cs "Practice Anulom-Vilom pranayama daily (10 minutes)",
       cs "Morning walk for 20-30 minutes",
       cs "Sleep by 10 PM, wake by 6 AM",
       cs "Avoid processed and cold foods",
       cs "Practice meditation for stress relief (10 minutes daily)"] := by
  unfold parse
  rw [splitNl_fallbackText p hn hg hd]
  rw [List.foldl_cons, List.foldl_cons, parseStep_nil_id]
  obtain ⟨s, hs⟩ := parseStep_start_shape [] [] [] (fallbackHeaderLine p)
  rw [hs]
  have htail : splitNl fallbackTail =
      [] :: cs "1. Ayurvedic Medicines:" :: (splitNl fallbackTail).drop 2 := by rfl
  rw [htail, List.foldl_cons, List.foldl_cons, parseStep_nil_id]
  have hmed : parseStep ⟨[], [], [], s⟩ (cs "1. Ayurvedic Medicines:") =
      ⟨[], [], [], Sec.medicines⟩ := by
    rw [parseStep_medHdr _ _ (by rfl)]
  rw [hmed]
  constructor
  · decide
  · decide

/-- Membership in a Python-style dict assignment: an entry of the updated
map is an old entry or carries the assigned key. -/
theorem mem_dictSet (m : List (List Char × List Char)) (k v : List Char)
    (kv : List Char × List Char) (h : kv ∈ dictSet m k v) : kv ∈ m ∨ kv.1 = k := by
  unfold dictSet at h
  split_ifs at h
  · obtain ⟨kv', hkv', heq⟩ := List.mem_map.mp h
    by_cases hk : kv'.1 = k
    · rw [if_pos hk] at heq
      right
      rw [← heq]
    · rw [if_neg hk] at heq
      exact Or.inl (heq ▸ hkv')
  · rcases List.mem_append.mp h with hm | hm
    · exact Or.inl hm
    · right
      simp only [List.mem_singleton] at hm
      rw [hm]

/-- Exhaustive characterization of one parsing step: a header switch, a
bullet append in the matching section, a diet-table store under one of the
four meal keys, or no change at all. -/
theorem parseStep_cases (st : PState) (l : List Char) :
    (isSubstr medHdr (pyStrip l) = true ∧ parseStep st l = { st with sec := Sec.medicines }) ∨
    (isSubstr dietHdr (pyStrip l) = true ∧ parseStep st l = { st with sec := Sec.diet }) ∨
    (isSubstr lifeHdr (pyStrip l) = true ∧ parseStep st l = { st with sec := Sec.lifestyle }) ∨
    (st.sec = Sec.medicines ∧
      ∃ x, parseStep st l = { st with medicines := st.medicines ++ [x] }) ∨
    (st.sec = Sec.lifestyle ∧
      ∃ x, parseStep st l = { st with lifestyle := st.lifestyle ++ [x] }) ∨
    (st.sec = Sec.diet ∧ ∃ k v,
      (k = cs "breakfast" ∨ k = cs "lunch" ∨ k = cs "dinner" ∨ k = cs "drinks") ∧
      parseStep st l = { st with diet := dictSet st.diet k v }) ∨
    parseStep st l = st := by
  by_cases h1 : isSubstr medHdr (pyStrip l) = true
  · exact Or.inl ⟨h1, by simp only [parseStep]; rw [if_pos h1]⟩
  by_cases h2 : isSubstr dietHdr (pyStrip l) = true
  · exact Or.inr (Or.inl ⟨h2, by simp only [parseStep]; rw [if_neg h1, if_pos h2]⟩)
  by_cases h3 : isSubstr lifeHdr (pyStrip l) = true
  · exact Or.inr (Or.inr (Or.inl ⟨h3, by
      simp only [parseStep]; rw [if_neg h1, if_neg h2, if_pos h3]⟩))
  by_cases h4 : (pyStrip l).head? = some '•' ∧ st.sec = Sec.medicines
  · refine Or.inr (Or.inr (Or.inr (Or.inl ⟨h4.2, pyStrip ((pyStrip l).drop 1), ?_⟩)))
    simp only [parseStep]
    rw [if_neg h1, if_neg h2, if_neg h3, if_pos h4]
  by_cases h5 : (pyStrip l).head? = some '•' ∧ st.sec = Sec.lifestyle
  · refine Or.inr (Or.inr (Or.inr (Or.inr (Or.inl ⟨h5.2, pyStrip ((pyStrip l).drop 1), ?_⟩))))
    simp only [parseStep]
    rw [if_neg h1, if_neg h2, if_neg h3, if_neg h4, if_pos h5]
  by_cases h6 : (pyStrip l).contains '|' = true ∧ st.sec = Sec.diet
  · have hbase : parseStep st l =
        (if isSubstr (cs "Breakfast") (pyStrip l) then dietStore st (pyStrip l) (cs "breakfast")
         else if isSubstr (cs "Lunch") (pyStrip l) then dietStore st (pyStrip l) (cs "lunch")
         else if isSubstr (cs "Dinner") (pyStrip l) then dietStore st (pyStrip l) (cs "dinner")
         else if isSubstr (cs "Drinks") (pyStrip l) then dietStore st (pyStrip l) (cs "drinks")
         else st) := by
      simp only [parseStep]
      rw [if_neg h1, if_neg h2, if_neg h3, if_neg h4, if_neg h5, if_pos h6]
    have store : ∀ key : List Char, dietStore st (pyStrip l) key = st ∨
        ∃ v, dietStore st (pyStrip l) key = { st with diet := dictSet st.diet key v } := by
      intro key
      unfold dietStore
      by_cases hlen : 3 ≤ (splitOnC '|' (pyStrip l)).length
      · exact Or.inr ⟨pyStrip (((splitOnC '|' (pyStrip l)).get? 2).getD []), by rw [if_pos hlen]⟩
      · exact Or.inl (by rw [if_neg hlen])
    have pick : ∀ key : List Char,
        (key = cs "breakfast" ∨ key = cs "lunch" ∨ key = cs "dinner" ∨ key = cs "drinks") →
        parseStep st l = dietStore st (pyStrip l) key →
        (st.sec = Sec.diet ∧ ∃ k v,
          (k = cs "breakfast" ∨ k = cs "lunch" ∨ k = cs "dinner" ∨ k = cs "drinks") ∧
          parseStep st l = { st with diet := dictSet st.diet k v }) ∨ parseStep st l = st := by
      intro key hkey heq
      rcases store key with hst | ⟨v, hv⟩
      · exact Or.inr (heq.trans hst)
      · exact Or.inl ⟨h6.2, key, v, hkey, heq.trans hv⟩
    by_cases hb : isSubstr (cs "Breakfast") (pyStrip l) = true
    · rcases pick (cs "breakfast") (Or.inl rfl) (hbase.trans (by rw [if_pos hb])) with hc | hc
      · exact Or.inr (Or.inr (Or.inr (Or.inr (Or.inr (Or.inl hc)))))
      · exact Or.inr (Or.inr (Or.inr (Or.inr (Or.inr (Or.inr hc)))))
    by_cases hlu : isSubstr (cs "Lunch") (pyStrip l) = true
    · rcases pick (cs "lunch") (Or.inr (Or.inl rfl))
        (hbase.trans (by rw [if_neg hb, if_pos hlu])) with hc | hc
      · exact Or.inr (Or.inr (Or.inr (Or.inr (Or.inr (Or.inl hc)))))
      · exact Or.inr (Or.inr (Or.inr (Or.inr (Or.inr (Or.inr hc)))))
    by_cases hdi : isSubstr (cs "Dinner") (pyStrip l) = true
    · rcases pick (cs "dinner") (Or.inr (Or.inr (Or.inl rfl)))
        (hbase.trans (by rw [if_neg hb, if_neg hlu, if_pos hdi])) with hc | hc
      · exact Or.inr (Or.inr (Or.inr (Or.inr (Or.inr (Or.inl hc)))))
      · exact Or.inr (Or.inr (Or.inr (Or.inr (Or.inr (Or.inr hc)))))
    by_cases hdr : isSubstr (cs "Drinks") (pyStrip l) = true
    · rcases pick (cs "drinks") (Or.inr (Or.inr (Or.inr rfl)))
        (hbase.trans (by rw [if_neg hb, if_neg hlu, if_neg hdi, if_pos hdr])) with hc | hc
      · exact Or.inr (Or.inr (Or.inr (Or.inr (Or.inr (Or.inl hc)))))
      · exact Or.inr (Or.inr (Or.inr (Or.inr (Or.inr (Or.inr hc)))))
    exact Or.inr (Or.inr (Or.inr (Or.inr (Or.inr (Or.inr
      (hbase.trans (by rw [if_neg hb, if_neg hlu, if_neg hdi, if_neg hdr])))))))
  · refine Or.inr (Or.inr (Or.inr (Or.inr (Or.inr (Or.inr ?_)))))
    simp only [parseStep]
    rw [if_neg h1, if_neg h2, if_neg h3, if_neg h4, if_neg h5, if_neg h6]

/-- Every key a parsing step can put into the diet map is one of the four
lowercase meal keys. -/
theorem parseStep_diet_keys (st : PState) (l : List Char)
    (h : ∀ kv ∈ st.diet, kv.1 = cs "breakfast" ∨ kv.1 = cs "lunch" ∨
      kv.1 = cs "dinner" ∨ kv.1 = cs "drinks") :
    ∀ kv ∈ (parseStep st l).diet, kv.1 = cs "breakfast" ∨ kv.1 = cs "lunch" ∨
      kv.1 = cs "dinner" ∨ kv.1 = cs "drinks" := by
  intro kv hkv
  rcases parseStep_cases st l with ⟨_, he⟩ | ⟨_, he⟩ | ⟨_, he⟩ | ⟨_, _, he⟩ | ⟨_, _, he⟩ |
    ⟨_, k, v, hk, he⟩ | he
  · exact h kv (by rw [he] at hkv; exact hkv)
  · exact h kv (by rw [he] at hkv; exact hkv)
  · exact h kv (by rw [he] at hkv; exact hkv)
  · exact h kv (by rw [he] at hkv; exact hkv)
  · exact h kv (by rw [he] at hkv; exact hkv)
  · rw [he] at hkv
    rcases mem_dictSet st.diet k v kv hkv with hm | hkk
    · exact h kv hm
    · rw [hkk]
      exact hk
  · exact h kv (by rw [he] at hkv; exact hkv)

/-- A line without the medicines header can neither enter the medicines
section nor extend an empty medicines list. -/
theorem parseStep_med_inv (st : PState) (l : List Char)
    (hhdr : isSubstr medHdr (pyStrip l) = false)
    (h : st.sec ≠ Sec.medicines ∧ st.medicines = []) :
    (parseStep st l).sec ≠ Sec.medicines ∧ (parseStep st l).medicines = [] := by
  rcases parseStep_cases st l with ⟨hc, he⟩ | ⟨_, he⟩ | ⟨_, he⟩ | ⟨hc, _, he⟩ | ⟨_, _, he⟩ |
    ⟨_, _, _, _, he⟩ | he
  · rw [hc] at hhdr
    exact absurd hhdr (by simp)
  · rw [he]
    exact ⟨by simp, h.2⟩
  · rw [he]
    exact ⟨by simp, h.2⟩
  · exact absurd hc h.1
  · rw [he]
    exact ⟨h.1, h.2⟩
  · rw [he]
    exact ⟨h.1, h.2⟩
  · rw [he]
    exact h

/-- A line without the diet header can neither enter the diet section nor
extend an empty diet map. -/
theorem parseStep_diet_inv (st : PState) (l : List Char)
    (hhdr : isSubstr dietHdr (pyStrip l) = false)
    (h : st.sec ≠ Sec.diet ∧ st.diet = []) :
    (parseStep st l).sec ≠ Sec.diet ∧ (parseStep st l).diet = [] := by
  rcases parseStep_cases st l with ⟨_, he⟩ | ⟨hc, he⟩ | ⟨_, he⟩ | ⟨_, _, he⟩ | ⟨_, _, he⟩ |
    ⟨hc, _, _, _, he⟩ | he
  · rw [he]
    exact ⟨by simp, h.2⟩
  · rw [hc] at hhdr
    exact absurd hhdr (by simp)
  · rw [he]
    exact ⟨by simp, h.2⟩
  · rw [he]
    exact ⟨h.1, h.2⟩
  · rw [he]
    exact ⟨h.1, h.2⟩
  · exact absurd hc h.1
  · rw [he]
    exact h

/-- A line without the lifestyle header can neither enter the lifestyle
section nor extend an empty lifestyle list. -/
theorem parseStep_life_inv (st : PState) (l : List Char)
    (hhdr : isSubstr lifeHdr (pyStrip l) = false)
    (h : st.sec ≠ Sec.lifestyle ∧ st.lifestyle = []) :
    (parseStep st l).sec ≠ Sec.lifestyle ∧ (parseStep st l).lifestyle = [] := by
  rcases parseStep_cases st l with ⟨_, he⟩ | ⟨_, he⟩ | ⟨hc, he⟩ | ⟨_, _, he⟩ | ⟨hc, _, he⟩ |
    ⟨_, _, _, _, he⟩ | he
  · rw [he]
    exact ⟨by simp, h.2⟩
  · rw [he]
    exact ⟨by simp, h.2⟩
  · rw [hc] at hhdr
    exact absurd hhdr (by simp)
  · rw [he]
    exact ⟨h.1, h.2⟩
  · exact absurd hc h.1
  · rw [he]
    exact ⟨h.1, h.2⟩
  · rw [he]
    exact h

/-- When the positive-score selection of the structured search is empty,
either the head slice itself is empty, or every record of the corpus scores
zero. -/
theorem fallback_cases (df : DataFrame) (symptoms : List (List Char))
    (dosha diagnosis : List Char) (n : Int) (hn : 0 ≤ n)
    (hfb : ((pySlice (insSortDesc (scoredStructured df symptoms dosha diagnosis)) n).filter
      (fun p => 0 < p.1)).map (fun p => p.2) = []) :
    pySlice (List.range df.rows.length) n = [] ∨
      ∀ p ∈ scoredStructured df symptoms dosha diagnosis, p.1 = 0 := by
  by_cases hz : ∀ p ∈ scoredStructured df symptoms dosha diagnosis, p.1 = 0
  · exact Or.inr hz
  · left
    push_neg at hz
    obtain ⟨p, hp, hp0⟩ := hz
    have hpos : 0 < p.1 := Nat.pos_of_ne_zero hp0
    have hps : p ∈ insSortDesc (scoredStructured df symptoms dosha diagnosis) :=
      (insSortDesc_perm _).mem_iff.mpr hp
    have hfilter : (pySlice (insSortDesc (scoredStructured df symptoms dosha diagnosis)) n).filter
        (fun p => 0 < p.1) = [] := by
      exact List.map_eq_nil_iff.mp hfb
    cases hsort : insSortDesc (scoredStructured df symptoms dosha diagnosis) with
    | nil => rw [hsort] at hps; cases hps
    | cons q t =>
      have hq1 : 0 < q.1 := by
        have := pairwise_head_ge q p t
          (hsort ▸ sorted_scoredStructured_pairwise df symptoms dosha diagnosis)
          (hsort ▸ hps)
        omega
      have hk0 : n.toNat = 0 := by
        by_contra hk
        have hk1 : 1 ≤ sliceLen (q :: t).length n := by
          simp only [sliceLen, if_pos hn]
          omega
        have hqslice : q ∈ pySlice (q :: t) n := by
          unfold pySlice
          cases hticks : sliceLen (q :: t).length n with
          | zero => omega
          | succ m => simp [List.take_succ_cons]
        have : q ∈ (pySlice (q :: t) n).filter (fun p => 0 < p.1) :=
          List.mem_filter.mpr ⟨hqslice, by simpa using hq1⟩
        rw [hsort] at hfilter
        rw [hfilter] at this
        cases this
      unfold pySlice
      simp [sliceLen, if_pos hn, hk0]

/-! ### Claim theorems -/

/-- C6: for the one-record corpus {constitution="Pitta", disease="Acid
Reflux", symptoms="heartburn, bloating"} and the structured query
{symptoms=["heartburn"], constitution="Pitta", diagnosis="Acid Reflux"},
the scoring assigns 10 + 8 + 3 = 21 and the search returns that record as
its sole result. -/
theorem C6_concrete_scenario :
    scoreStructured [cs "heartburn"] (cs "Pitta") (cs "Acid Reflux") dfScenario.cols
      ((dfScenario.rows.get? 0).getD []) = 21 ∧
    searchStructured dfScenario [cs "heartburn"] (cs "Pitta") (cs "Acid Reflux") 5 =
      [{ id := cs "0",
         text := cs "Disease: Acid Reflux | Symptoms: heartburn, bloating | Constitution: Pitta",
         metadata := [(cs "disease", Cell.val (cs "Acid Reflux")),
                      (cs "symptoms", Cell.val (cs "heartburn, bloating")),
                      (cs "constitution", Cell.val (cs "Pitta")),
                      (cs "ayurvedic_herbs", Cell.val (cs "N/A")),
                      (cs "formulation", Cell.val (cs "N/A")),
                      (cs "diet_recommendations", Cell.val (cs "N/A")),
                      (cs "lifestyle_recommendations", Cell.val (cs "N/A"))] }] := by
  constructor
  · decide
  · decide

/-- C9 counterexample: with `top_n = -1` (which satisfies `top_n ≤ 0`), the
free-text search over a two-record matching corpus returns a non-empty
result, because the Python slice `scores[:-1]` keeps all entries but the
last instead of none. -/
theorem C9_counterexample :
    ((-1 : Int) ≤ 0) ∧ searchByText dfTwoMatch (cs "a") (-1) ≠ [] := by
  constructor
  · decide
  · decide

/-- C9 amended: with `top_n = 0` both search operations return the empty
sequence, for every corpus and every query; for negative `top_n` Python
slice semantics apply and the result may be non-empty. -/
theorem C9_topn_zero_empty (df : DataFrame) (symptoms : List (List Char))
    (dosha diagnosis q : List Char) :
    searchStructured df symptoms dosha diagnosis 0 = [] ∧ searchByText df q 0 = [] := by
  constructor
  · rfl
  · rfl

/-- C1 counterexample: a NaN value in a present `Symptoms` column is passed
through to the metadata unchanged (pandas `row.get('Symptoms', 'N/A')`
returns the NaN, not the default), so the metadata value is not the string
"N/A". -/
theorem C1_counterexample :
    (searchStructured dfNanSym [] (cs "Pitta") [] 5).headI.metadata.lookup
      (cs "symptoms") = some Cell.nan ∧ Cell.nan ≠ Cell.val (cs "N/A") := by
  constructor
  · decide
  · decide

/-- C1 amended: every result's metadata is the fixed-key normalization of an
actual corpus row, in which the "N/A" default applies only to columns absent
from the frame while NaN cells pass through unchanged; the structured search
emits seven keys but the free-text search emits only six (its metadata has
no `lifestyle_recommendations` entry). -/
theorem C1_metadata_normalization (df : DataFrame) (symptoms : List (List Char))
    (dosha diagnosis q : List Char) (n : Int) :
    (∀ r ∈ searchStructured df symptoms dosha diagnosis n,
      ∃ i row, df.rows.get? i = some row ∧ r.metadata = mkMeta7 df.cols row) ∧
    (∀ r ∈ searchByText df q n,
      ∃ i row, df.rows.get? i = some row ∧ r.metadata = mkMeta6 df.cols row) ∧
    (∀ cols row, (mkMeta7 cols row).map (fun kv => kv.1) =
      [cs "disease", cs "symptoms", cs "constitution", cs "ayurvedic_herbs",
       cs "formulation", cs "diet_recommendations", cs "lifestyle_recommendations"]) ∧
    (∀ cols row, (mkMeta6 cols row).map (fun kv => kv.1) =
      [cs "disease", cs "symptoms", cs "constitution", cs "ayurvedic_herbs",
       cs "formulation", cs "diet_recommendations"]) := by
  refine ⟨?_, ?_, fun cols row => rfl, fun cols row => rfl⟩
  · intro r hr
    obtain ⟨i, hi, rfl⟩ := List.mem_map.mp hr
    obtain ⟨row, hrow⟩ := structIdx_mem df symptoms dosha diagnosis n i hi
    refine ⟨i, row, hrow, ?_⟩
    simp only [mkResult7, hrow, Option.getD_some]
  · intro r hr
    obtain ⟨i, hi, rfl⟩ := List.mem_map.mp hr
    obtain ⟨row, hrow⟩ := textIdx_mem df q n i hi
    refine ⟨i, row, hrow, ?_⟩
    simp only [mkResult6, hrow, Option.getD_some]

/-- Witness for C1's amended theorem at the NaN corpus: the returned
metadata is the normalization of the stored row. -/
theorem C1_metadata_normalization_witness :
    ∃ i row, dfNanSym.rows.get? i = some row ∧
      (searchStructured dfNanSym [] (cs "Pitta") [] 5).headI.metadata =
        mkMeta7 dfNanSym.cols row :=
  (C1_metadata_normalization dfNanSym [] (cs "Pitta") [] [] 5).1
    (searchStructured dfNanSym [] (cs "Pitta") [] 5).headI (by decide)

/-- C7 counterexample: a line processed in the diet state that contains a
pipe, the keyword "Breakfast", and at least three pipe segments, but also
contains the diet header phrase, is consumed by the header branch of the
if/elif chain and stores nothing. -/
theorem C7_counterexample :
    (pyStrip dietLineHdr).contains '|' = true ∧
    isSubstr (cs "Breakfast") (pyStrip dietLineHdr) = true ∧
    3 ≤ (splitOnC '|' (pyStrip dietLineHdr)).length ∧
    (parseStep stDiet dietLineHdr).diet = [] := by
  refine ⟨by decide, by decide, by decide, by decide⟩

/-- C7 amended: in the diet state, a stripped line that contains a pipe and
none of the three section-header phrases, and whose pipe split has at least
three segments, stores the trimmed third segment under the first meal key
matching in the order Breakfast, Lunch, Dinner, Drinks. -/
theorem C7_diet_line (st : PState) (raw : List Char) (hsec : st.sec = Sec.diet)
    (h1 : isSubstr medHdr (pyStrip raw) = false)
    (h2 : isSubstr dietHdr (pyStrip raw) = false)
    (h3 : isSubstr lifeHdr (pyStrip raw) = false)
    (hp : (pyStrip raw).contains '|' = true)
    (hlen : 3 ≤ (splitOnC '|' (pyStrip raw)).length) :
    (isSubstr (cs "Breakfast") (pyStrip raw) = true →
      (parseStep st raw).diet = dictSet st.diet (cs "breakfast")
        (pyStrip (((splitOnC '|' (pyStrip raw)).get? 2).getD []))) ∧
    (isSubstr (cs "Breakfast") (pyStrip raw) = false →
      isSubstr (cs "Lunch") (pyStrip raw) = true →
      (parseStep st raw).diet = dictSet st.diet (cs "lunch")
        (pyStrip (((splitOnC '|' (pyStrip raw)).get? 2).getD []))) ∧
    (isSubstr (cs "Breakfast") (pyStrip raw) = false →
      isSubstr (cs "Lunch") (pyStrip raw) = false →
      isSubstr (cs "Dinner") (pyStrip raw) = true →
      (parseStep st raw).diet = dictSet st.diet (cs "dinner")
        (pyStrip (((splitOnC '|' (pyStrip raw)).get? 2).getD []))) ∧
    (isSubstr (cs "Breakfast") (pyStrip raw) = false →
      isSubstr (cs "Lunch") (pyStrip raw) = false →
      isSubstr (cs "Dinner") (pyStrip raw) = false →
      isSubstr (cs "Drinks") (pyStrip raw) = true →
      (parseStep st raw).diet = dictSet st.diet (cs "drinks")
        (pyStrip (((splitOnC '|' (pyStrip raw)).get? 2).getD []))) := by
  have hb4 : ¬((pyStrip raw).head? = some '•' ∧ st.sec = Sec.medicines) := by
    rintro ⟨_, hx⟩
    rw [hsec] at hx
    cases hx
  have hb5 : ¬((pyStrip raw).head? = some '•' ∧ st.sec = Sec.lifestyle) := by
    rintro ⟨_, hx⟩
    rw [hsec] at hx
    cases hx
  have hbase : parseStep st raw =
      (if isSubstr (cs "Breakfast") (pyStrip raw) then dietStore st (pyStrip raw) (cs "breakfast")
       else if isSubstr (cs "Lunch") (pyStrip raw) then dietStore st (pyStrip raw) (cs "lunch")
       else if isSubstr (cs "Dinner") (pyStrip raw) then dietStore st (pyStrip raw) (cs "dinner")
       else if isSubstr (cs "Drinks") (pyStrip raw) then dietStore st (pyStrip raw) (cs "drinks")
       else st) := by
    simp only [parseStep]
    rw [if_neg (by simp [h1]), if_neg (by simp [h2]), if_neg (by simp [h3]),
      if_neg hb4, if_neg hb5, if_pos ⟨hp, hsec⟩]
  have hstore : ∀ key : List Char, (dietStore st (pyStrip raw) key).diet =
      dictSet st.diet key (pyStrip (((splitOnC '|' (pyStrip raw)).get? 2).getD [])) := by
    intro key
    unfold dietStore
    rw [if_pos hlen]
  refine ⟨?_, ?_, ?_, ?_⟩
  · intro hbk
    rw [hbase, if_pos hbk]
    exact hstore _
  · intro hbk hlu
    rw [hbase, if_neg (by simp [hbk]), if_pos hlu]
    exact hstore _
  · intro hbk hlu hdi
    rw [hbase, if_neg (by simp [hbk]), if_neg (by simp [hlu]), if_pos hdi]
    exact hstore _
  · intro hbk hlu hdi hdr
    rw [hbase, if_neg (by simp [hbk]), if_neg (by simp [hlu]), if_neg (by simp [hdi]),
      if_pos hdr]
    exact hstore _

/-- Witness for C7's amended theorem: the line `| Breakfast | Warm oats |`
processed in the diet state stores `breakfast -> "Warm oats"`. -/
theorem C7_diet_line_witness :
    (parseStep stDiet dietLineOk).diet = [(cs "breakfast", cs "Warm oats")] := by
  have h := (C7_diet_line stDiet dietLineOk rfl (by decide) (by decide) (by decide)
    (by decide) (by decide)).1 (by decide)
  rw [h]
  decide

/-- C8: the structured-document formatter is deterministic in everything but
the clock, yet the code reads `datetime.now()` inside `_create_json_output`
(and `_format_display_output`) rather than receiving the timestamp as a
parameter: evaluating the embedded formatter (with the ambient clock made
explicit) at two different clock instants yields different documents. -/
theorem C8_timestamp_dependence :
    createJsonOutput [] pPlain (cs "2024-01-01T00:00:00") ≠
      createJsonOutput [] pPlain (cs "2024-01-02T00:00:00") ∧
    (∀ text p nowIso, createJsonOutput text p nowIso = createJsonOutput text p nowIso) := by
  constructor
  · decide
  · intro text p nowIso
    rfl

/-- C4 counterexample: a patient whose name contains a newline, a medicines
header and a bullet line makes the fixed fallback text parse to four
medicines instead of three, while the call still takes the fallback path
(generator returned falsy text, success is false). -/
theorem C4_counterexample :
    (generatePrescription pEvil [] (GenOutcome.returns []) (cs "May 01, 2024")
      (cs "2024-05-01T00:00:00")).success = false ∧
    (generatePrescription pEvil [] (GenOutcome.returns []) (cs "May 01, 2024")
      (cs "2024-05-01T00:00:00")).json_format.medicines.length = 4 := by
  constructor
  · rfl
  · decide

/-- C4 amended: for every patient whose name, gender and constitution
contain no newline (so header substitution cannot inject parser lines), and
for every generator behaviour that raises or returns empty text,
`generate_prescription` returns the fallback outcome: success false,
similar-cases count 0, the explanatory error string, a report containing
the patient's name, and the fixed document with exactly 3 medicines and
exactly 5 lifestyle entries. -/
theorem C4_fallback_outcome (p : PatientInfo) (similar : List RetrievedCase)
    (g : GenOutcome) (nowDate nowIso : List Char)
    (hn : '\n' ∉ p.name) (hg : '\n' ∉ p.gender) (hd : '\n' ∉ p.constitution_dosha)
    (hgen : g = GenOutcome.raises ∨ g = GenOutcome.returns []) :
    (generatePrescription p similar g nowDate nowIso).success = false ∧
    (generatePrescription p similar g nowDate nowIso).similar_cases_count = 0 ∧
    (generatePrescription p similar g nowDate nowIso).error =
      some (cs "Using fallback prescription") ∧
    isSubstr p.name (generatePrescription p similar g nowDate nowIso).display_format = true ∧
    (generatePrescription p similar g nowDate nowIso).json_format.medicines.length = 3 ∧
    (generatePrescription p similar g nowDate nowIso).json_format.lifestyle.length = 5 := by
  have hr : generatePrescription p similar g nowDate nowIso =
      createFallbackResponse p nowDate nowIso := by
    rcases hgen with rfl | rfl
    · rfl
    · simp [generatePrescription]
  rw [hr]
  obtain ⟨hm, hl⟩ := parse_fallbackText p hn hg hd
  refine ⟨rfl, rfl, rfl, ?_, ?_, ?_⟩
  · show isSubstr p.name (formatDisplayOutput (fallbackText p) p nowDate) = true
    unfold formatDisplayOutput
    exact isSubstr_sandwich displayPre p.name (displayPost (fallbackText p) p nowDate)
  · have h1 : (createFallbackResponse p nowDate nowIso).json_format.medicines =
        (parse (fallbackText p)).medicines := rfl
    rw [h1, hm]
    rfl
  · have h2 : (createFallbackResponse p nowDate nowIso).json_format.lifestyle =
        (parse (fallbackText p)).lifestyle := rfl
    rw [h2, hl]
    rfl

/-- Witness for C4's amended theorem at an ordinary patient and a generator
that returns the empty string. -/
theorem C4_fallback_outcome_witness :
    (generatePrescription pPlain [] (GenOutcome.returns []) (cs "May 01, 2024")
      (cs "2024-05-01T00:00:00")).success = false ∧
    (generatePrescription pPlain [] (GenOutcome.returns []) (cs "May 01, 2024")
      (cs "2024-05-01T00:00:00")).json_format.medicines.length = 3 ∧
    (generatePrescription pPlain [] (GenOutcome.returns []) (cs "May 01, 2024")
      (cs "2024-05-01T00:00:00")).json_format.lifestyle.length = 5 := by
  have h := C4_fallback_outcome pPlain [] (GenOutcome.returns [])
    (cs "May 01, 2024") (cs "2024-05-01T00:00:00")
    (by decide) (by decide) (by decide) (Or.inr rfl)
  exact ⟨h.1, h.2.2.2.2.1, h.2.2.2.2.2⟩

/-- C5: the response parser is total (the embedding is a pure fold) and the
document's prescription group always carries the three collections —
medicines list, diet mapping whose keys can only be
breakfast/lunch/dinner/drinks, lifestyle list — and each collection is empty
whenever no line of the text contains the corresponding section header. -/
theorem C5_parser_total_shape (text : List Char) (p : PatientInfo) (nowIso : List Char) :
    (createJsonOutput text p nowIso).medicines = (parse text).medicines ∧
    (createJsonOutput text p nowIso).diet = (parse text).diet ∧
    (createJsonOutput text p nowIso).lifestyle = (parse text).lifestyle ∧
    (∀ kv ∈ (parse text).diet, kv.1 = cs "breakfast" ∨ kv.1 = cs "lunch" ∨
      kv.1 = cs "dinner" ∨ kv.1 = cs "drinks") ∧
    ((∀ l ∈ splitNl text, isSubstr medHdr (pyStrip l) = false) →
      (parse text).medicines = []) ∧
    ((∀ l ∈ splitNl text, isSubstr dietHdr (pyStrip l) = false) →
      (parse text).diet = []) ∧
    ((∀ l ∈ splitNl text, isSubstr lifeHdr (pyStrip l) = false) →
      (parse text).lifestyle = []) := by
  refine ⟨rfl, rfl, rfl, ?_, ?_, ?_, ?_⟩
  · exact foldl_parseStep_inv
      (fun st => ∀ kv ∈ st.diet, kv.1 = cs "breakfast" ∨ kv.1 = cs "lunch" ∨
        kv.1 = cs "dinner" ∨ kv.1 = cs "drinks")
      (splitNl text) (fun st l _ h => parseStep_diet_keys st l h) _ (by simp)
  · intro hno
    exact (foldl_parseStep_inv (fun st => st.sec ≠ Sec.medicines ∧ st.medicines = [])
      (splitNl text) (fun st l hl hP => parseStep_med_inv st l (hno l hl) hP) _
      ⟨by decide, rfl⟩).2
  · intro hno
    exact (foldl_parseStep_inv (fun st => st.sec ≠ Sec.diet ∧ st.diet = [])
      (splitNl text) (fun st l hl hP => parseStep_diet_inv st l (hno l hl) hP) _
      ⟨by decide, rfl⟩).2
  · intro hno
    exact (foldl_parseStep_inv (fun st => st.sec ≠ Sec.lifestyle ∧ st.lifestyle = [])
      (splitNl text) (fun st l hl hP => parseStep_life_inv st l (hno l hl) hP) _
      ⟨by decide, rfl⟩).2

/-- Witness for C5 at a text without any section header: the medicines list
comes out empty. -/
theorem C5_parser_total_shape_witness :
    (parse (cs "no section headers")).medicines = [] :=
  (C5_parser_total_shape (cs "no section headers") pPlain []).2.2.2.2.1 (by decide)

/-- C2 counterexample: with `top_n = -1` the structured search over a
two-record zero-scoring corpus returns one result (`head(-1)` keeps all but
the last record), so "at most top_n results" fails for negative `top_n`. -/
theorem C2_counterexample :
    ¬ (((searchStructured dfAllZero [] (cs "Pitta") [] (-1)).length : Int) ≤ -1) := by
  decide

/-- C2 amended: for every corpus, every structured query and every
`top_n ≥ 0`, the structured search returns at most `top_n` results, the
selected indices are ordered by strictly descending score with ties broken
by strictly ascending original index, and two calls with identical inputs
return identical output. -/
theorem C2_ranking_deterministic (df : DataFrame) (symptoms : List (List Char))
    (dosha diagnosis : List Char) (n : Int) (hn : 0 ≤ n) :
    (searchStructured df symptoms dosha diagnosis n).length ≤ n.toNat ∧
    ((structIdx df symptoms dosha diagnosis n).map
      (fun i => (scoreAt df symptoms dosha diagnosis i, i))).Pairwise rankRel ∧
    searchStructured df symptoms dosha diagnosis n =
      searchStructured df symptoms dosha diagnosis n := by
  have hslice : ∀ L : Nat, sliceLen L n = n.toNat := fun L => by simp [sliceLen, hn]
  refine ⟨?_, ?_, rfl⟩
  · show ((structIdx df symptoms dosha diagnosis n).map (mkResult7 df)).length ≤ n.toNat
    rw [List.length_map]
    simp only [structIdx]
    split_ifs with hfb
    · calc (pySlice (List.range df.rows.length) n).length
          ≤ sliceLen (List.range df.rows.length).length n := List.length_take_le _ _
        _ = n.toNat := hslice _
    · rw [List.length_map]
      calc ((pySlice (insSortDesc (scoredStructured df symptoms dosha diagnosis)) n).filter
            (fun p => 0 < p.1)).length
          ≤ (pySlice (insSortDesc (scoredStructured df symptoms dosha diagnosis)) n).length :=
            List.length_filter_le _ _
        _ ≤ sliceLen (insSortDesc (scoredStructured df symptoms dosha diagnosis)).length n :=
            List.length_take_le _ _
        _ = n.toNat := hslice _
  · simp only [structIdx]
    split_ifs with hfb
    · rcases fallback_cases df symptoms dosha diagnosis n hn hfb with hempty | hzero
      · rw [hempty]
        exact List.Pairwise.nil
      · apply List.pairwise_map.mpr
        have hpr : (pySlice (List.range df.rows.length) n).Pairwise (· < ·) :=
          (List.pairwise_lt_range _).sublist (List.take_sublist _ _)
        have h0 : ∀ m ∈ pySlice (List.range df.rows.length) n,
            scoreAt df symptoms dosha diagnosis m = 0 := by
          intro m hm
          have hlt := List.mem_range.mp ((List.take_sublist _ _).subset hm)
          obtain ⟨row, hrow⟩ : ∃ row, df.rows.get? m = some row :=
            ⟨df.rows.get ⟨m, hlt⟩, List.get?_eq_get hlt⟩
          have hz := hzero _ (scoredStructured_mem_of df symptoms dosha diagnosis m row hrow)
          unfold scoreAt
          rw [hrow]
          simpa using hz
        refine List.Pairwise.imp_of_mem ?_ hpr
        intro i j hi hj hij
        exact Or.inr ⟨by rw [h0 i hi, h0 j hj], hij⟩
    · have hsc : ∀ p ∈ (pySlice (insSortDesc
          (scoredStructured df symptoms dosha diagnosis)) n).filter (fun p => 0 < p.1),
          p.1 = scoreAt df symptoms dosha diagnosis p.2 := by
        intro p hp
        have hp3 := (List.take_sublist _ _).subset (List.mem_of_mem_filter hp)
        obtain ⟨row, hrow, hs⟩ := mem_sorted_scoredStructured df symptoms dosha diagnosis p hp3
        unfold scoreAt
        rw [hrow]
        simpa using hs
      rw [remap_fst (scoreAt df symptoms dosha diagnosis) _ hsc]
      exact (sorted_scoredStructured_pairwise df symptoms dosha diagnosis).sublist
        ((List.filter_sublist _).trans (List.take_sublist _ _))

/-- Witness for C2's amended theorem on the zero-scoring corpus with
`top_n = 5`. -/
theorem C2_ranking_deterministic_witness :
    (searchStructured dfAllZero [] (cs "Pitta") [] 5).length ≤ (5 : Int).toNat :=
  (C2_ranking_deterministic dfAllZero [] (cs "Pitta") [] 5 (by decide)).1

/-- C3: for every non-empty corpus, structured query and `top_n ≥ 0`: if
some record scores positive, every returned result is a positively-scored
record (the first-top_n fallback is not used); if every record scores zero,
the result is exactly the first `top_n` records in natural order. -/
theorem C3_positive_and_fallback (df : DataFrame) (symptoms : List (List Char))
    (dosha diagnosis : List Char) (n : Int) (_hne : df.rows ≠ []) (hn : 0 ≤ n) :
    ((∃ i row, df.rows.get? i = some row ∧
        0 < scoreStructured symptoms dosha diagnosis df.cols row) →
      ∀ r ∈ searchStructured df symptoms dosha diagnosis n,
        ∃ i row, df.rows.get? i = some row ∧ r = mkResult7 df i ∧
          0 < scoreStructured symptoms dosha diagnosis df.cols row) ∧
    ((∀ i row, df.rows.get? i = some row →
        scoreStructured symptoms dosha diagnosis df.cols row = 0) →
      searchStructured df symptoms dosha diagnosis n =
        ((List.range df.rows.length).take n.toNat).map (mkResult7 df)) := by
  constructor
  · intro hpos r hr
    obtain ⟨i, hi, rfl⟩ := List.mem_map.mp hr
    simp only [structIdx] at hi
    split_ifs at hi with hfb
    · rcases fallback_cases df symptoms dosha diagnosis n hn hfb with hempty | hzero
      · rw [hempty] at hi
        cases hi
      · obtain ⟨j, row, hrow, hposj⟩ := hpos
        have hz := hzero _ (scoredStructured_mem_of df symptoms dosha diagnosis j row hrow)
        simp only at hz
        omega
    · obtain ⟨p, hp, rfl⟩ := List.mem_map.mp hi
      have hppos : 0 < p.1 := by
        have := (List.mem_filter.mp hp).2
        simpa using this
      have hp3 := (List.take_sublist _ _).subset (List.mem_of_mem_filter hp)
      obtain ⟨row, hrow, hs⟩ := mem_sorted_scoredStructured df symptoms dosha diagnosis p hp3
      exact ⟨p.2, row, hrow, rfl, by omega⟩
  · intro hall
    have hfilter : ((pySlice (insSortDesc (scoredStructured df symptoms dosha diagnosis)) n).filter
        (fun p => 0 < p.1)) = [] := by
      apply List.filter_eq_nil_iff.mpr
      intro p hp
      have hp3 := (List.take_sublist _ _).subset hp
      obtain ⟨row, hrow, hs⟩ := mem_sorted_scoredStructured df symptoms dosha diagnosis p hp3
      have hz := hall p.2 row hrow
      simp [hs, hz]
    show (structIdx df symptoms dosha diagnosis n).map (mkResult7 df) = _
    have hidx : structIdx df symptoms dosha diagnosis n =
        pySlice (List.range df.rows.length) n := by
      simp only [structIdx, hfilter, List.map_nil, if_pos]
    rw [hidx]
    unfold pySlice
    have : sliceLen (List.range df.rows.length).length n = n.toNat := by
      simp [sliceLen, hn]
    rw [this]

/-- Witness for C3 at the concrete scenario corpus: the sole returned result
is a positively-scored record. -/
theorem C3_positive_and_fallback_witness :
    ∃ i row, dfScenario.rows.get? i = some row ∧
      (searchStructured dfScenario [cs "heartburn"] (cs "Pitta") (cs "Acid Reflux") 5).headI =
        mkResult7 dfScenario i ∧
      0 < scoreStructured [cs "heartburn"] (cs "Pitta") (cs "Acid Reflux")
        dfScenario.cols row :=
  (C3_positive_and_fallback dfScenario [cs "heartburn"] (cs "Pitta") (cs "Acid Reflux") 5
      (by decide) (by decide)).1
    ⟨0, [Cell.val (cs "Pitta"), Cell.val (cs "Acid Reflux"),
        Cell.val (cs "heartburn, bloating")], by decide, by decide⟩
    (searchStructured dfScenario [cs "heartburn"] (cs "Pitta") (cs "Acid Reflux") 5).headI
    (by decide)

/-- C10: with the empty free-text query, every record scores the sum over
its non-absent fields of field length plus one, so the search returns
exactly `min top_n K` results where `K` counts the records with at least one
non-absent field, and the result is non-empty whenever such a record
exists. -/
theorem C10_empty_query (df : DataFrame) (n : Int) (hn : 0 < n) :
    (∀ row ∈ df.rows, textScore [] df.cols row = sumFieldLens df.cols row) ∧
    (searchByText df [] n).length =
      min n.toNat (df.rows.countP (fun r => rowHasVal df.cols r)) ∧
    (0 < df.rows.countP (fun r => rowHasVal df.cols r) → searchByText df [] n ≠ []) := by
  have hK : (scoredText df []).length = df.rows.countP (fun r => rowHasVal df.cols r) := by
    rw [scoredText_length]
    apply List.countP_congr
    intro r _
    show decide (0 < textScore [] df.cols r) = true ↔ rowHasVal df.cols r = true
    rw [decide_eq_true_eq]
    exact textScore_nil_pos_iff df.cols r
  have hmin : (searchByText df [] n).length =
      min n.toNat (df.rows.countP (fun r => rowHasVal df.cols r)) := by
    show ((textIdx df [] n).map (mkResult6 df)).length = _
    rw [List.length_map]
    simp only [textIdx]
    rw [List.length_map]
    unfold pySlice
    rw [List.length_take]
    have hL : sliceLen (insSortDesc (scoredText df [])).length n = n.toNat := by
      simp [sliceLen, hn.le]
    rw [hL, (insSortDesc_perm (scoredText df [])).length_eq, hK]
  refine ⟨fun row _ => textScore_nil_eq df.cols row, hmin, ?_⟩
  intro hKpos
  apply List.ne_nil_of_length_pos
  rw [hmin]
  have : 0 < n.toNat := by omega
  omega

/-- Witness for C10 on a mixed corpus (two records with values, one all-NaN
record) at `top_n = 2`. -/
theorem C10_empty_query_witness :
    (searchByText dfMixed [] 2).length =
      min ((2 : Int)).toNat (dfMixed.rows.countP (fun r => rowHasVal dfMixed.cols r)) ∧
    searchByText dfMixed [] 2 ≠ [] :=
  ⟨(C10_empty_query dfMixed 2 (by decide)).2.1,
   (C10_empty_query dfMixed 2 (by decide)).2.2 (by decide)⟩

end AyurGenix
